import Mathlib

/-!
Shallow embedding of the infinite-Klondike game core (src/src/main.rs).

The rendering, window and camera code is excluded; `on_click` receives the
already-resolved logical inputs that the excluded layer computes from the
mouse position: the column under the pointer (`rowOver`, from
`get_row_over_mouse`), the vertical slot (`yslot`, from the pick-up branch's
`(y - camera.y - TABLEAU_Y_OFFSET) / 16` computation), and the boolean
`onFoundation` (from `is_mouse_on_foundation`).  The ambient random source is
modelled by passing in the card `d` it would produce on the (at most one)
draw an event can perform; `generate_new` receives a function `draw` giving
the card drawn for each new column index, and the required column count that
the screen-width arithmetic would yield.
-/

namespace Klondike

inductive Suit where
  | Club
  | Diamond
  | Heart
  | Spade
deriving DecidableEq, Repr

/-- `Suit::is_red` from the source. -/
def Suit.is_red : Suit → Bool
  | .Club | .Spade => false
  | .Diamond | .Heart => true

/-- A playing card: `Card { suit, inner: Pip(u8) }` in the source.  The rank
is the `Pip` payload; the generator only ever produces ranks in `0..13`, so
`Nat` arithmetic never differs from the `u8` arithmetic of the source on
reachable cards. -/
structure Card where
  suit : Suit
  rank : Nat
deriving DecidableEq, Repr

/-- `Pip::is_ace`. -/
def Card.is_ace (c : Card) : Bool := c.rank == 0

/-- `Card::can_drop_on`: rank exactly one less than the target and opposite
color (`Pip::can_drop_on` composed with the suit-color test). -/
def Card.can_drop_on (c other : Card) : Bool :=
  (c.rank + 1 == other.rank) && (c.suit.is_red != other.suit.is_red)

/-- `Stack { visible: Vec<Card>, under: u32 }`: one tableau column, a
face-up list (bottom first) plus a face-down count. -/
structure Stack where
  visible : List Card
  under : Nat
deriving DecidableEq, Repr

def emptyStack : Stack := { visible := [], under := 0 }

def defaultCard : Card := { suit := Suit.Club, rank := 0 }

/-- `HashMap::get` on the foundations, modelled over an association list. -/
def fGet (m : List (Nat × Card)) (k : Nat) : Option Card :=
  (m.find? (fun p => p.1 == k)).map Prod.snd

/-- `HashMap::insert` on the foundations: overwrites any existing binding. -/
def fInsert (m : List (Nat × Card)) (k : Nat) (c : Card) : List (Nat × Card) :=
  (k, c) :: m.filter (fun p => p.1 != k)

/-- The mutable game state `State`, minus the camera (excluded layer). -/
structure GState where
  grabbed_stack : List Card
  grabbed_stack_row : Nat
  tableau : List Stack
  foundations : List (Nat × Card)
deriving DecidableEq, Repr

/-- The inlined reveal snippet of `on_click`:
`if under > 0 && visible.is_empty() { visible.push(random()); under -= 1 }`,
with `d` the card the random source produces. -/
def revealIfEmpty (d : Card) (st : Stack) : Stack :=
  if 0 < st.under && st.visible.isEmpty then
    { visible := st.visible ++ [d], under := st.under - 1 }
  else st

/-- Apply the reveal snippet to the origin column inside the tableau. -/
def revealOrigin (d : Card) (t : List Stack) (i : Nat) : List Stack :=
  t.set i (revealIfEmpty d (t.getD i emptyStack))

/-- The cancel path of `on_click`:
`self.tableau[self.grabbed_stack_row].visible.append(&mut self.grabbed_stack)`. -/
def cancelDrop (s : GState) : GState :=
  let col := s.tableau.getD s.grabbed_stack_row emptyStack
  { s with
    grabbed_stack := [],
    tableau := s.tableau.set s.grabbed_stack_row
      { col with visible := col.visible ++ s.grabbed_stack } }

/-- The foundation-placement path of `on_click`:
`self.foundations.insert(fi, self.grabbed_stack.pop().unwrap())` followed by
the reveal snippet on the origin column. -/
def placeOnFoundation (fi : Nat) (d : Card) (s : GState) : GState :=
  let card := s.grabbed_stack.getLastD defaultCard
  { s with
    grabbed_stack := s.grabbed_stack.dropLast,
    foundations := fInsert s.foundations fi card,
    tableau := revealOrigin d s.tableau s.grabbed_stack_row }

/-- The pick-up arm of `on_click` (nothing grabbed, a column `r` under the
pointer, vertical slot `yslot`). -/
def pickUp (r : Nat) (yslot : Nat) (s : GState) : GState :=
  let col := s.tableau.getD r emptyStack
  -- y.checked_sub(under)
  if yslot < col.under then s
  else
    let visible_idx := yslot - col.under
    if col.visible.length ≤ visible_idx then
      -- only pickup the top card (Vec::pop)
      match col.visible.getLast? with
      | none => { s with grabbed_stack_row := r }
      | some card =>
        { s with
          grabbed_stack_row := r,
          grabbed_stack := s.grabbed_stack ++ [card],
          tableau := s.tableau.set r { col with visible := col.visible.dropLast } }
    else
      -- grabbed_stack.extend(visible.drain(visible_idx..))
      { s with
        grabbed_stack_row := r,
        grabbed_stack := s.grabbed_stack ++ col.visible.drop visible_idx,
        tableau := s.tableau.set r { col with visible := col.visible.take visible_idx } }

/-- The foundation-drop arm of `on_click` (mouse on the foundation row and
exactly one card grabbed, column `r` under the pointer). -/
def dropOnFoundation (r : Nat) (d : Card) (s : GState) : GState :=
  let grabbed_card := s.grabbed_stack.getD 0 defaultCard
  -- row_over.checked_sub(3)
  if r < 3 then cancelDrop s
  else
    let fi := r - 3
    match fGet s.foundations fi with
    | some card =>
      if card.suit == grabbed_card.suit && card.rank + 1 == grabbed_card.rank then
        placeOnFoundation fi d s
      else s
    | none =>
      if grabbed_card.is_ace then placeOnFoundation fi d s
      else s

/-- The ordinary tableau-drop arm of `on_click` (column `r` under the
pointer). -/
def dropOnTableau (r : Nat) (d : Card) (s : GState) : GState :=
  let stack := s.tableau.getD r emptyStack
  let can :=
    match s.grabbed_stack.head?, stack.visible.getLast? with
    | some g, some t => g.can_drop_on t
    | _, _ => false
  if can || (stack.under == 0 && stack.visible.isEmpty) then
    let t1 := s.tableau.set r { stack with visible := stack.visible ++ s.grabbed_stack }
    { s with
      grabbed_stack := [],
      tableau := revealOrigin d t1 s.grabbed_stack_row }
  else cancelDrop s

/-- `State::on_click`, one input event.  `rowOver` is
`get_row_over_mouse()`, `yslot` the vertical slot computed in the pick-up
branch, `onFoundation` is `is_mouse_on_foundation()`, and `d` the card the
random source would produce on a draw. -/
def on_click (rowOver : Option Nat) (yslot : Nat) (onFoundation : Bool)
    (d : Card) (s : GState) : GState :=
  if s.grabbed_stack.isEmpty then
    -- nothing grabbed: pick-up
    match rowOver with
    | none => s
    | some r => pickUp r yslot s
  else
    -- drop grabbed stack
    match rowOver with
    | none => cancelDrop s
    | some r =>
      if onFoundation && s.grabbed_stack.length == 1 then
        dropOnFoundation r d s
      else
        dropOnTableau r d s

/-- `State::generate_new`, parameterised on the required column count the
screen-width arithmetic yields and on the random source (`draw h` is the
card drawn for the new column at index `h`). -/
def generate_new (required : Nat) (draw : Nat → Card) (t : List Stack) : List Stack :=
  if t.length < required then
    t ++ (List.range' t.length (required - t.length)).map
      (fun h => { visible := [draw h], under := h })
  else t

/-- Multiset of cards across all columns' visible stacks. -/
def tableauCards (t : List Stack) : Multiset Card :=
  (t.map (fun st => (st.visible : Multiset Card))).sum

/-- Multiset of the foundation entries' top cards. -/
def foundationCards (m : List (Nat × Card)) : Multiset Card :=
  ((m.map Prod.snd : List Card) : Multiset Card)

/-- All cards in a game state: columns' visible stacks, the held stack, and
the foundation tops. -/
def stateCards (s : GState) : Multiset Card :=
  tableauCards s.tableau + (s.grabbed_stack : Multiset Card)
    + foundationCards s.foundations

/-- The exception clause of the conservation claim: the previous foundation
top that a successful placement onto a non-empty foundation entry
overwrites, when the event is such a placement (empty otherwise). -/
def foundationOverwrite (rowOver : Option Nat) (onFoundation : Bool)
    (s : GState) : Multiset Card :=
  match rowOver with
  | none => 0
  | some r =>
    if onFoundation = true ∧ s.grabbed_stack.length = 1 ∧ 3 ≤ r then
      match fGet s.foundations (r - 3) with
      | some t =>
        let g := s.grabbed_stack.getD 0 defaultCard
        if t.suit = g.suit ∧ t.rank + 1 = g.rank then {t} else 0
      | none => 0
    else 0

section ListLemmas

theorem getD_set_self {α : Type} (l : List α) (i : Nat) (a e : α)
    (h : i < l.length) : (l.set i a).getD i e = a := by
  induction l generalizing i with
  | nil => simp at h
  | cons x xs ih =>
    cases i with
    | zero => simp
    | succ n => simpa using ih n (by simpa using h)

theorem getD_set_ne {α : Type} (l : List α) (i j : Nat) (a e : α)
    (h : i ≠ j) : (l.set i a).getD j e = l.getD j e := by
  induction l generalizing i j with
  | nil => simp
  | cons x xs ih =>
    cases i with
    | zero =>
      cases j with
      | zero => exact absurd rfl h
      | succ m => simp
    | succ n =>
      cases j with
      | zero => simp
      | succ m => simpa using ih n m (fun hc => h (by rw [hc]))

theorem set_getD_self {α : Type} (l : List α) (i : Nat) (e : α)
    (h : i < l.length) : l.set i (l.getD i e) = l := by
  induction l generalizing i with
  | nil => simp
  | cons x xs ih =>
    cases i with
    | zero => simp
    | succ n => simpa using ih n (by simpa using h)

theorem length_set_eq {α : Type} (l : List α) (i : Nat) (a : α) :
    (l.set i a).length = l.length := by
  simp

end ListLemmas

section MultisetLemmas

theorem tableauCards_nil : tableauCards [] = 0 := rfl

theorem tableauCards_cons (x : Stack) (t : List Stack) :
    tableauCards (x :: t) = (x.visible : Multiset Card) + tableauCards t := by
  simp [tableauCards]

theorem tableauCards_set (t : List Stack) (i : Nat) (c : Stack)
    (h : i < t.length) :
    tableauCards (t.set i c) + ((t.getD i emptyStack).visible : Multiset Card)
      = tableauCards t + (c.visible : Multiset Card) := by
  induction t generalizing i with
  | nil => simp at h
  | cons x xs ih =>
    cases i with
    | zero =>
      simp only [List.set, List.getD_cons_zero, tableauCards_cons]
      abel
    | succ n =>
      simp only [List.set, List.getD_cons_succ, tableauCards_cons]
      have := ih n (by simpa using h)
      calc (x.visible : Multiset Card) + tableauCards (xs.set n c)
            + ((xs.getD n emptyStack).visible : Multiset Card)
          = (x.visible : Multiset Card)
            + (tableauCards (xs.set n c) + ((xs.getD n emptyStack).visible : Multiset Card)) := by
            exact add_assoc _ _ _
        _ = (x.visible : Multiset Card) + (tableauCards xs + (c.visible : Multiset Card)) := by
            rw [this]
        _ = (x.visible : Multiset Card) + tableauCards xs + (c.visible : Multiset Card) := by
            exact (add_assoc _ _ _).symm

theorem fGet_cons (a : Nat × Card) (m : List (Nat × Card)) (k : Nat) :
    fGet (a :: m) k = if a.1 == k then some a.2 else fGet m k := by
  simp only [fGet, List.find?]
  cases h : (a.1 == k) <;> simp

theorem fGet_none_of_not_mem (m : List (Nat × Card)) (k : Nat)
    (h : k ∉ m.map Prod.fst) : fGet m k = none := by
  induction m with
  | nil => rfl
  | cons a m ih =>
    simp only [List.map_cons, List.mem_cons] at h
    push_neg at h
    rw [fGet_cons]
    have hak : (a.1 == k) = false := by
      simp only [beq_eq_false_iff_ne]
      exact fun hc => h.1 hc.symm
    rw [hak]
    simp only [Bool.false_eq_true, if_false]
    exact ih h.2

theorem filter_eq_self_of_fGet_none (m : List (Nat × Card)) (k : Nat)
    (h : fGet m k = none) : m.filter (fun p => p.1 != k) = m := by
  induction m with
  | nil => rfl
  | cons a m ih =>
    rw [fGet_cons] at h
    cases hak : (a.1 == k) with
    | true => rw [hak] at h; simp at h
    | false =>
      rw [hak] at h
      simp only [Bool.false_eq_true, if_false] at h
      have hne : (a.1 != k) = true := by simp [bne, hak]
      rw [List.filter_cons, if_pos hne, ih h]

theorem foundationCards_cons (a : Nat × Card) (m : List (Nat × Card)) :
    foundationCards (a :: m) = a.2 ::ₘ foundationCards m := by
  simp [foundationCards]

theorem foundationCards_filter_some (m : List (Nat × Card)) (k : Nat) (t : Card)
    (hnd : (m.map Prod.fst).Nodup) (h : fGet m k = some t) :
    foundationCards (m.filter (fun p => p.1 != k)) + {t} = foundationCards m := by
  induction m with
  | nil => simp [fGet] at h
  | cons a m ih =>
    simp only [List.map_cons, List.nodup_cons] at hnd
    rw [fGet_cons] at h
    cases hak : (a.1 == k) with
    | true =>
      rw [hak] at h
      simp only [if_true] at h
      have hk : a.1 = k := eq_of_beq hak
      have hnone : fGet m k = none := by
        apply fGet_none_of_not_mem
        rw [← hk]
        exact hnd.1
      have hne : (a.1 != k) = false := by simp [bne, hak]
      rw [List.filter_cons]
      rw [hne]
      simp only [Bool.false_eq_true, if_false]
      rw [filter_eq_self_of_fGet_none m k hnone, foundationCards_cons]
      have ht : t = a.2 := by injection h.symm
      rw [ht]
      rw [Multiset.add_singleton_eq_iff.mpr]
      constructor
      · exact Multiset.mem_cons_self _ _
      · simp
    | false =>
      rw [hak] at h
      simp only [Bool.false_eq_true, if_false] at h
      have hne : (a.1 != k) = true := by simp [bne, hak]
      rw [List.filter_cons, if_pos hne, foundationCards_cons, foundationCards_cons]
      rw [Multiset.cons_add]
      rw [ih hnd.2 h]

theorem foundationCards_fInsert_none (m : List (Nat × Card)) (k : Nat) (c : Card)
    (h : fGet m k = none) :
    foundationCards (fInsert m k c) = c ::ₘ foundationCards m := by
  simp only [fInsert, foundationCards_cons]
  rw [filter_eq_self_of_fGet_none m k h]

theorem foundationCards_fInsert_some (m : List (Nat × Card)) (k : Nat) (c t : Card)
    (hnd : (m.map Prod.fst).Nodup) (h : fGet m k = some t) :
    foundationCards (fInsert m k c) + {t} = c ::ₘ foundationCards m := by
  simp only [fInsert, foundationCards_cons]
  rw [Multiset.cons_add]
  rw [foundationCards_filter_some m k t hnd h]

end MultisetLemmas

section BranchLemmas

theorem fGet_fInsert_self (m : List (Nat × Card)) (k : Nat) (c : Card) :
    fGet (fInsert m k c) k = some c := by
  simp [fGet, fInsert, List.find?]

theorem on_click_pick (s : GState) (r yslot : Nat) (f : Bool) (d : Card)
    (h : s.grabbed_stack = []) :
    on_click (some r) yslot f d s = pickUp r yslot s := by
  simp [on_click, h]

theorem on_click_drop_none (s : GState) (yslot : Nat) (f : Bool) (d : Card)
    (h : s.grabbed_stack ≠ []) :
    on_click none yslot f d s = cancelDrop s := by
  have hne : s.grabbed_stack.isEmpty = false := by
    simp [List.isEmpty_iff, h]
  simp [on_click, hne]

theorem on_click_drop_foundation (s : GState) (r yslot : Nat) (d : Card)
    (h : s.grabbed_stack ≠ []) (hl : s.grabbed_stack.length = 1) :
    on_click (some r) yslot true d s = dropOnFoundation r d s := by
  have hne : s.grabbed_stack.isEmpty = false := by
    simp [List.isEmpty_iff, h]
  simp [on_click, hne, hl]

theorem on_click_drop_tableau (s : GState) (r yslot : Nat) (f : Bool) (d : Card)
    (h : s.grabbed_stack ≠ [])
    (hord : f = false ∨ s.grabbed_stack.length ≠ 1) :
    on_click (some r) yslot f d s = dropOnTableau r d s := by
  have hne : s.grabbed_stack.isEmpty = false := by
    simp [List.isEmpty_iff, h]
  have hcond : (f && s.grabbed_stack.length == 1) = false := by
    rcases hord with hf | hlen
    · simp [hf]
    · simp [hlen]
  simp [on_click, hne, hcond]

end BranchLemmas

section FoundationDropLemmas

theorem dof_low (s : GState) (r : Nat) (d : Card) (hr : r < 3) :
    dropOnFoundation r d s = cancelDrop s := by
  simp only [dropOnFoundation, hr, if_true]

theorem dof_none_ace (s : GState) (r : Nat) (d : Card) (hr : 3 ≤ r)
    (hf : fGet s.foundations (r - 3) = none)
    (hace : (s.grabbed_stack.getD 0 defaultCard).rank = 0) :
    dropOnFoundation r d s = placeOnFoundation (r - 3) d s := by
  have hge : ¬ r < 3 := by omega
  have hb : (s.grabbed_stack.getD 0 defaultCard).is_ace = true := by
    simp only [Card.is_ace, beq_iff_eq]
    exact hace
  simp only [List.getD_eq_getElem?_getD] at hb
  simp [dropOnFoundation, hge, hf, hb]

theorem dof_none_notace (s : GState) (r : Nat) (d : Card) (hr : 3 ≤ r)
    (hf : fGet s.foundations (r - 3) = none)
    (hace : (s.grabbed_stack.getD 0 defaultCard).rank ≠ 0) :
    dropOnFoundation r d s = s := by
  have hge : ¬ r < 3 := by omega
  have hb : (s.grabbed_stack.getD 0 defaultCard).is_ace = false := by
    simp only [Card.is_ace, beq_eq_false_iff_ne, ne_eq]
    exact hace
  simp only [List.getD_eq_getElem?_getD] at hb
  simp [dropOnFoundation, hge, hf, hb]

theorem dof_some_ok (s : GState) (r : Nat) (d : Card) (t : Card) (hr : 3 ≤ r)
    (hf : fGet s.foundations (r - 3) = some t)
    (hsuit : t.suit = (s.grabbed_stack.getD 0 defaultCard).suit)
    (hrank : t.rank + 1 = (s.grabbed_stack.getD 0 defaultCard).rank) :
    dropOnFoundation r d s = placeOnFoundation (r - 3) d s := by
  have hge : ¬ r < 3 := by omega
  have hs2 := hsuit
  have hr2 := hrank
  simp only [List.getD_eq_getElem?_getD] at hs2 hr2
  simp [dropOnFoundation, hge, hf, hs2, hr2]

theorem dof_some_bad (s : GState) (r : Nat) (d : Card) (t : Card) (hr : 3 ≤ r)
    (hf : fGet s.foundations (r - 3) = some t)
    (hbad : ¬ (t.suit = (s.grabbed_stack.getD 0 defaultCard).suit ∧
      t.rank + 1 = (s.grabbed_stack.getD 0 defaultCard).rank)) :
    dropOnFoundation r d s = s := by
  have hge : ¬ r < 3 := by omega
  have hb : (t.suit == (s.grabbed_stack.getD 0 defaultCard).suit &&
      t.rank + 1 == (s.grabbed_stack.getD 0 defaultCard).rank) = false := by
    rcases Bool.eq_false_or_eq_true (t.suit == (s.grabbed_stack.getD 0 defaultCard).suit &&
      t.rank + 1 == (s.grabbed_stack.getD 0 defaultCard).rank) with h | h
    · simp only [Bool.and_eq_true, beq_iff_eq] at h
      exact absurd h hbad
    · exact h
  simp only [dropOnFoundation, hge, if_false, hf, hb]
  simp

end FoundationDropLemmas

section ClaimC4

/-- Claim C4: a foundation drop of a single held card at a non-negative
foundation index places the card iff either the entry at that index is
absent and the card is an Ace (rank 0), or the entry holds a card of the
same suit whose rank is exactly one less than the dropped card's rank; on
acceptance the entry is overwritten with the dropped card, and on rejection
the Foundation Set is left unchanged. -/
theorem c4_foundation_try_place (s : GState) (r yslot : Nat) (d g : Card)
    (hg : s.grabbed_stack = [g]) (hr : 3 ≤ r) :
    (((fGet s.foundations (r - 3) = none ∧ g.rank = 0) ∨
        (∃ t, fGet s.foundations (r - 3) = some t ∧ t.suit = g.suit ∧
          t.rank + 1 = g.rank)) →
      (on_click (some r) yslot true d s).foundations
          = fInsert s.foundations (r - 3) g ∧
        fGet (on_click (some r) yslot true d s).foundations (r - 3) = some g) ∧
    ((¬ ((fGet s.foundations (r - 3) = none ∧ g.rank = 0) ∨
        (∃ t, fGet s.foundations (r - 3) = some t ∧ t.suit = g.suit ∧
          t.rank + 1 = g.rank))) →
      (on_click (some r) yslot true d s).foundations = s.foundations) := by
  have hne : s.grabbed_stack ≠ [] := by simp [hg]
  have hl : s.grabbed_stack.length = 1 := by simp [hg]
  rw [on_click_drop_foundation s r yslot d hne hl]
  have hgd : s.grabbed_stack.getD 0 defaultCard = g := by simp [hg]
  cases hf : fGet s.foundations (r - 3) with
  | none =>
    constructor
    · intro hacc
      rcases hacc with ⟨_, hrank⟩ | ⟨t, ht, _⟩
      · rw [dof_none_ace s r d (by omega) hf (by rw [hgd]; exact hrank)]
        refine ⟨?_, ?_⟩
        · simp [placeOnFoundation, hg]
        · simp [placeOnFoundation, hg, fGet_fInsert_self]
      · exact absurd ht (by simp)
    · intro hrej
      have hrank : g.rank ≠ 0 := fun hc => hrej (Or.inl ⟨rfl, hc⟩)
      rw [dof_none_notace s r d (by omega) hf (by rw [hgd]; exact hrank)]
  | some t =>
    constructor
    · intro hacc
      rcases hacc with ⟨hnone, _⟩ | ⟨t2, ht2, hsuit, hrank⟩
      · exact absurd hnone (by simp)
      · have htt : t = t2 := by simpa using ht2
        subst htt
        rw [dof_some_ok s r d t (by omega) hf (by rw [hgd]; exact hsuit)
          (by rw [hgd]; exact hrank)]
        refine ⟨?_, ?_⟩
        · simp [placeOnFoundation, hg]
        · simp [placeOnFoundation, hg, fGet_fInsert_self]
    · intro hrej
      have hbad : ¬ (t.suit = (s.grabbed_stack.getD 0 defaultCard).suit ∧
          t.rank + 1 = (s.grabbed_stack.getD 0 defaultCard).rank) := by
        rw [hgd]
        exact fun hc => hrej (Or.inr ⟨t, rfl, hc.1, hc.2⟩)
      rw [dof_some_bad s r d t (by omega) hf hbad]

/-- Witness for C4 at the spec's scenario: foundation index 2 holds the ace
of hearts, a held two of hearts dropped at foundation index 2 is accepted
and the entry becomes the two of hearts. -/
theorem c4_foundation_try_place_witness :
    (on_click (some 5) 0 true defaultCard
        { grabbed_stack := [{ suit := Suit.Heart, rank := 1 }],
          grabbed_stack_row := 0,
          tableau := [emptyStack, emptyStack, emptyStack, emptyStack,
            emptyStack, emptyStack],
          foundations := [(2, { suit := Suit.Heart, rank := 0 })] }).foundations
      = fInsert [(2, { suit := Suit.Heart, rank := 0 })] 2
          { suit := Suit.Heart, rank := 1 } := by
  have h := c4_foundation_try_place
    { grabbed_stack := [{ suit := Suit.Heart, rank := 1 }],
      grabbed_stack_row := 0,
      tableau := [emptyStack, emptyStack, emptyStack, emptyStack,
        emptyStack, emptyStack],
      foundations := [(2, { suit := Suit.Heart, rank := 0 })] }
    5 0 defaultCard { suit := Suit.Heart, rank := 1 } rfl (by omega)
  exact (h.1 (Or.inr ⟨{ suit := Suit.Heart, rank := 0 }, by decide, rfl, rfl⟩)).1

end ClaimC4

section ClaimC1

/-- Claim C1 counterexample: foundation index 2 empty, a held five of
hearts dropped on the foundation row above column 5.  The claim says the
held card is returned to the origin column's visible stack and the session
ends Idle; in fact the event leaves the card in the held stack and the
origin column stays empty. -/
theorem c1_counterexample :
    (on_click (some 5) 0 true defaultCard
        { grabbed_stack := [{ suit := Suit.Heart, rank := 4 }],
          grabbed_stack_row := 0,
          tableau := [emptyStack, emptyStack, emptyStack, emptyStack,
            emptyStack, emptyStack],
          foundations := [] }).grabbed_stack
        = [{ suit := Suit.Heart, rank := 4 }] ∧
      (on_click (some 5) 0 true defaultCard
        { grabbed_stack := [{ suit := Suit.Heart, rank := 4 }],
          grabbed_stack_row := 0,
          tableau := [emptyStack, emptyStack, emptyStack, emptyStack,
            emptyStack, emptyStack],
          foundations := [] }).tableau.getD 0 emptyStack = emptyStack := by
  decide

/-- Claim C1 (amended): for every drop from Holding with the pointer over
the foundation row, exactly one card held, a non-negative foundation index,
and the placement rejected, the event changes nothing at all: the card
stays in the held stack (the session remains Holding), and the columns and
the Foundation Set are unchanged. -/
theorem c1_foundation_reject_keeps_holding (s : GState) (r yslot : Nat)
    (d g : Card) (hg : s.grabbed_stack = [g]) (hr : 3 ≤ r)
    (hrej : (fGet s.foundations (r - 3) = none ∧ g.rank ≠ 0) ∨
      (∃ t, fGet s.foundations (r - 3) = some t ∧
        ¬ (t.suit = g.suit ∧ t.rank + 1 = g.rank))) :
    on_click (some r) yslot true d s = s := by
  have hne : s.grabbed_stack ≠ [] := by simp [hg]
  have hl : s.grabbed_stack.length = 1 := by simp [hg]
  rw [on_click_drop_foundation s r yslot d hne hl]
  have hgd : s.grabbed_stack.getD 0 defaultCard = g := by simp [hg]
  rcases hrej with ⟨hf, hrank⟩ | ⟨t, hf, hbad⟩
  · exact dof_none_notace s r d hr hf (by rw [hgd]; exact hrank)
  · exact dof_some_bad s r d t hr hf (by rw [hgd]; exact hbad)

/-- Witness for amended C1 at the spec's scenario (foundation index 2
empty, held five of hearts): the event is a no-op. -/
theorem c1_foundation_reject_keeps_holding_witness :
    on_click (some 5) 0 true defaultCard
        { grabbed_stack := [{ suit := Suit.Heart, rank := 4 }],
          grabbed_stack_row := 0,
          tableau := [emptyStack, emptyStack, emptyStack, emptyStack,
            emptyStack, emptyStack],
          foundations := [] }
      = { grabbed_stack := [{ suit := Suit.Heart, rank := 4 }],
          grabbed_stack_row := 0,
          tableau := [emptyStack, emptyStack, emptyStack, emptyStack,
            emptyStack, emptyStack],
          foundations := [] } :=
  c1_foundation_reject_keeps_holding _ 5 0 defaultCard
    { suit := Suit.Heart, rank := 4 } rfl (by omega)
    (Or.inl ⟨rfl, by decide⟩)

end ClaimC1

section ClaimC5

/-- Claim C5 counterexample: held five of hearts (origin column 0), pointer
over the foundation row, target column 2 whose top is the six of spades (a
legal tableau target).  The claim says the drop is treated as an ordinary
tableau drop onto column 2 and succeeds; in fact the card is appended back
onto the origin column 0 and column 2 is untouched. -/
theorem c5_counterexample :
    (on_click (some 2) 0 true defaultCard
        { grabbed_stack := [{ suit := Suit.Heart, rank := 4 }],
          grabbed_stack_row := 0,
          tableau := [emptyStack, emptyStack,
            { visible := [{ suit := Suit.Spade, rank := 5 }], under := 0 }],
          foundations := [] }).tableau.getD 2 emptyStack
        = { visible := [{ suit := Suit.Spade, rank := 5 }], under := 0 } ∧
      (on_click (some 2) 0 true defaultCard
        { grabbed_stack := [{ suit := Suit.Heart, rank := 4 }],
          grabbed_stack_row := 0,
          tableau := [emptyStack, emptyStack,
            { visible := [{ suit := Suit.Spade, rank := 5 }], under := 0 }],
          foundations := [] }).tableau.getD 0 emptyStack
        = { visible := [{ suit := Suit.Heart, rank := 4 }], under := 0 } := by
  decide

/-- Claim C5 (amended): a drop from Holding with the pointer over the
foundation row, exactly one card held, and target column index less than 3
is cancelled: the held card is appended back onto the origin column's
visible stack, the session returns to Idle, and the Foundation Set is
unchanged — the target column is not consulted and the tableau legality
rule plays no part. -/
theorem c5_low_foundation_index_cancels (s : GState) (r yslot : Nat)
    (d : Card) (hne : s.grabbed_stack ≠ [])
    (hl : s.grabbed_stack.length = 1) (hr : r < 3) :
    on_click (some r) yslot true d s = cancelDrop s ∧
      (on_click (some r) yslot true d s).grabbed_stack = [] ∧
      (on_click (some r) yslot true d s).tableau
        = s.tableau.set s.grabbed_stack_row
            { s.tableau.getD s.grabbed_stack_row emptyStack with
              visible := (s.tableau.getD s.grabbed_stack_row emptyStack).visible
                ++ s.grabbed_stack } ∧
      (on_click (some r) yslot true d s).foundations = s.foundations := by
  rw [on_click_drop_foundation s r yslot d hne hl, dof_low s r d hr]
  exact ⟨rfl, rfl, rfl, rfl⟩

/-- Witness for amended C5 at the counterexample input. -/
theorem c5_low_foundation_index_cancels_witness :
    on_click (some 2) 0 true defaultCard
        { grabbed_stack := [{ suit := Suit.Heart, rank := 4 }],
          grabbed_stack_row := 0,
          tableau := [emptyStack, emptyStack,
            { visible := [{ suit := Suit.Spade, rank := 5 }], under := 0 }],
          foundations := [] }
      = cancelDrop
        { grabbed_stack := [{ suit := Suit.Heart, rank := 4 }],
          grabbed_stack_row := 0,
          tableau := [emptyStack, emptyStack,
            { visible := [{ suit := Suit.Spade, rank := 5 }], under := 0 }],
          foundations := [] } :=
  (c5_low_foundation_index_cancels _ 2 0 defaultCard
    (by decide) (by decide) (by omega)).1

end ClaimC5

section TableauDropLemmas

theorem dot_success (s : GState) (r : Nat) (d : Card)
    (hcond : ((match s.grabbed_stack.head?,
          (s.tableau.getD r emptyStack).visible.getLast? with
        | some g, some t => g.can_drop_on t
        | _, _ => false)
      || ((s.tableau.getD r emptyStack).under == 0 &&
          (s.tableau.getD r emptyStack).visible.isEmpty)) = true) :
    dropOnTableau r d s =
      { s with
        grabbed_stack := [],
        tableau := revealOrigin d
          (s.tableau.set r
            { s.tableau.getD r emptyStack with
              visible := (s.tableau.getD r emptyStack).visible
                ++ s.grabbed_stack })
          s.grabbed_stack_row } := by
  simp only [dropOnTableau]
  rw [if_pos hcond]

theorem dot_fail (s : GState) (r : Nat) (d : Card)
    (hcond : ((match s.grabbed_stack.head?,
          (s.tableau.getD r emptyStack).visible.getLast? with
        | some g, some t => g.can_drop_on t
        | _, _ => false)
      || ((s.tableau.getD r emptyStack).under == 0 &&
          (s.tableau.getD r emptyStack).visible.isEmpty)) = false) :
    dropOnTableau r d s = cancelDrop s := by
  simp only [dropOnTableau]
  rw [if_neg (by rw [hcond]; simp)]

theorem accept_iff_aux (a b : Option Card) (u : Nat) (v : List Card) :
    (((match a, b with
        | some g, some t => g.can_drop_on t
        | _, _ => false) || (u == 0 && v.isEmpty)) = true)
    ↔ ((∃ g t, a = some g ∧ b = some t ∧ g.rank + 1 = t.rank ∧
        g.suit.is_red ≠ t.suit.is_red) ∨ (u = 0 ∧ v = [])) := by
  cases a <;> cases b <;>
    simp [Card.can_drop_on, List.isEmpty_iff, bne_iff_ne]

end TableauDropLemmas

section ClaimC3

/-- Claim C3: an ordinary tableau drop from Holding onto target column `r`
(pointer not over the foundation row, or more than one card held) succeeds
— appending the whole held stack, bottom card first, onto the target's
visible stack and then applying reveal-if-empty to the origin column — iff
the bottom-most held card's rank is exactly one less than the target's top
rank with differing colors, or the target column is fully empty
(`under = 0` and empty visible stack); otherwise the held cards are
appended back onto the origin column. -/
theorem c3_tableau_drop_iff (s : GState) (r yslot : Nat) (f : Bool) (d : Card)
    (hne : s.grabbed_stack ≠ [])
    (hord : f = false ∨ s.grabbed_stack.length ≠ 1)
    (hr : r < s.tableau.length) :
    (((∃ g t, s.grabbed_stack.head? = some g ∧
        (s.tableau.getD r emptyStack).visible.getLast? = some t ∧
        g.rank + 1 = t.rank ∧ g.suit.is_red ≠ t.suit.is_red) ∨
      ((s.tableau.getD r emptyStack).under = 0 ∧
        (s.tableau.getD r emptyStack).visible = [])) →
      on_click (some r) yslot f d s =
        { s with
          grabbed_stack := [],
          tableau := revealOrigin d
            (s.tableau.set r
              { s.tableau.getD r emptyStack with
                visible := (s.tableau.getD r emptyStack).visible
                  ++ s.grabbed_stack })
            s.grabbed_stack_row }) ∧
    ((¬ ((∃ g t, s.grabbed_stack.head? = some g ∧
        (s.tableau.getD r emptyStack).visible.getLast? = some t ∧
        g.rank + 1 = t.rank ∧ g.suit.is_red ≠ t.suit.is_red) ∨
      ((s.tableau.getD r emptyStack).under = 0 ∧
        (s.tableau.getD r emptyStack).visible = []))) →
      on_click (some r) yslot f d s =
        { s with
          grabbed_stack := [],
          tableau := s.tableau.set s.grabbed_stack_row
            { s.tableau.getD s.grabbed_stack_row emptyStack with
              visible := (s.tableau.getD s.grabbed_stack_row emptyStack).visible
                ++ s.grabbed_stack } }) := by
  rw [on_click_drop_tableau s r yslot f d hne hord]
  constructor
  · intro hacc
    exact dot_success s r d ((accept_iff_aux _ _ _ _).mpr hacc)
  · intro hrej
    have hcond : ((match s.grabbed_stack.head?,
          (s.tableau.getD r emptyStack).visible.getLast? with
        | some g, some t => g.can_drop_on t
        | _, _ => false)
      || ((s.tableau.getD r emptyStack).under == 0 &&
          (s.tableau.getD r emptyStack).visible.isEmpty)) = false := by
      cases hc : ((match s.grabbed_stack.head?,
          (s.tableau.getD r emptyStack).visible.getLast? with
        | some g, some t => g.can_drop_on t
        | _, _ => false)
      || ((s.tableau.getD r emptyStack).under == 0 &&
          (s.tableau.getD r emptyStack).visible.isEmpty)) with
      | false => rfl
      | true => exact absurd ((accept_iff_aux _ _ _ _).mp hc) hrej
    rw [dot_fail s r d hcond]
    rfl

/-- Witness for C3 at the spec's scenario: column 0 empty after picking up
the seven of spades, dropped onto column 1 whose top is the eight of
diamonds; the drop succeeds and column 1 becomes eight-then-seven. -/
theorem c3_tableau_drop_iff_witness :
    (on_click (some 1) 0 false defaultCard
        { grabbed_stack := [{ suit := Suit.Spade, rank := 6 }],
          grabbed_stack_row := 0,
          tableau := [emptyStack,
            { visible := [{ suit := Suit.Diamond, rank := 7 }], under := 0 }],
          foundations := [] }).tableau.getD 1 emptyStack
      = { visible := [{ suit := Suit.Diamond, rank := 7 },
          { suit := Suit.Spade, rank := 6 }], under := 0 } := by
  have h := (c3_tableau_drop_iff
    { grabbed_stack := [{ suit := Suit.Spade, rank := 6 }],
      grabbed_stack_row := 0,
      tableau := [emptyStack,
        { visible := [{ suit := Suit.Diamond, rank := 7 }], under := 0 }],
      foundations := [] }
    1 0 false defaultCard (by decide) (Or.inl rfl) (by decide)).1
    (Or.inl ⟨{ suit := Suit.Spade, rank := 6 },
      { suit := Suit.Diamond, rank := 7 }, rfl, by decide, rfl, by decide⟩)
  rw [h]
  decide

end ClaimC3

section ClaimC6

/-- Claim C6 counterexample: a held five of hearts dropped onto column 1
whose visible stack is empty but whose hidden count is 1.  The claim says
an empty target accepts anything regardless of the hidden count; in fact
the drop is rejected: column 1 is untouched and the card goes back to the
origin column 0. -/
theorem c6_counterexample :
    (on_click (some 1) 0 false defaultCard
        { grabbed_stack := [{ suit := Suit.Heart, rank := 4 }],
          grabbed_stack_row := 0,
          tableau := [emptyStack, { visible := [], under := 1 }],
          foundations := [] }).tableau.getD 1 emptyStack
        = { visible := [], under := 1 } ∧
      (on_click (some 1) 0 false defaultCard
        { grabbed_stack := [{ suit := Suit.Heart, rank := 4 }],
          grabbed_stack_row := 0,
          tableau := [emptyStack, { visible := [], under := 1 }],
          foundations := [] }).tableau.getD 0 emptyStack
        = { visible := [{ suit := Suit.Heart, rank := 4 }], under := 0 } := by
  decide

/-- Claim C6 (amended): a tableau drop from Holding onto a column whose
visible stack is empty is accepted iff the column's hidden count is also 0
(the column is fully empty); when the hidden count is positive the drop is
rejected and the held cards are appended back onto the origin column. -/
theorem c6_empty_visible_drop_iff_no_hidden (s : GState) (r yslot : Nat)
    (f : Bool) (d : Card) (hne : s.grabbed_stack ≠ [])
    (hord : f = false ∨ s.grabbed_stack.length ≠ 1)
    (hvis : (s.tableau.getD r emptyStack).visible = []) :
    (((s.tableau.getD r emptyStack).under = 0 →
      on_click (some r) yslot f d s =
        { s with
          grabbed_stack := [],
          tableau := revealOrigin d
            (s.tableau.set r
              { s.tableau.getD r emptyStack with
                visible := (s.tableau.getD r emptyStack).visible
                  ++ s.grabbed_stack })
            s.grabbed_stack_row })) ∧
    ((s.tableau.getD r emptyStack).under ≠ 0 →
      on_click (some r) yslot f d s =
        { s with
          grabbed_stack := [],
          tableau := s.tableau.set s.grabbed_stack_row
            { s.tableau.getD s.grabbed_stack_row emptyStack with
              visible := (s.tableau.getD s.grabbed_stack_row emptyStack).visible
                ++ s.grabbed_stack } }) := by
  rw [on_click_drop_tableau s r yslot f d hne hord]
  constructor
  · intro h0
    exact dot_success s r d
      ((accept_iff_aux _ _ _ _).mpr (Or.inr ⟨h0, hvis⟩))
  · intro hpos
    have hcond : ((match s.grabbed_stack.head?,
          (s.tableau.getD r emptyStack).visible.getLast? with
        | some g, some t => g.can_drop_on t
        | _, _ => false)
      || ((s.tableau.getD r emptyStack).under == 0 &&
          (s.tableau.getD r emptyStack).visible.isEmpty)) = false := by
      cases hc : ((match s.grabbed_stack.head?,
          (s.tableau.getD r emptyStack).visible.getLast? with
        | some g, some t => g.can_drop_on t
        | _, _ => false)
      || ((s.tableau.getD r emptyStack).under == 0 &&
          (s.tableau.getD r emptyStack).visible.isEmpty)) with
      | false => rfl
      | true =>
        rcases (accept_iff_aux _ _ _ _).mp hc with ⟨g, t, _, ht, _, _⟩ | ⟨h0, _⟩
        · rw [hvis] at ht
          exact absurd ht (by simp)
        · exact absurd h0 hpos
    rw [dot_fail s r d hcond]
    rfl

/-- Witness for amended C6: a held five of hearts dropped onto a fully
empty column 1 is accepted. -/
theorem c6_empty_visible_drop_iff_no_hidden_witness :
    (on_click (some 1) 0 false defaultCard
        { grabbed_stack := [{ suit := Suit.Heart, rank := 4 }],
          grabbed_stack_row := 0,
          tableau := [emptyStack, emptyStack],
          foundations := [] }).tableau.getD 1 emptyStack
      = { visible := [{ suit := Suit.Heart, rank := 4 }], under := 0 } := by
  have h := (c6_empty_visible_drop_iff_no_hidden
    { grabbed_stack := [{ suit := Suit.Heart, rank := 4 }],
      grabbed_stack_row := 0,
      tableau := [emptyStack, emptyStack],
      foundations := [] }
    1 0 false defaultCard (by decide) (Or.inl rfl) rfl).1 rfl
  rw [h]
  decide

end ClaimC6

section ClaimC9

/-- Claim C9: board growth is idempotent and append-only.  If the required
column count is at most the current one, `generate_new` changes nothing;
otherwise it appends exactly the missing columns at strictly increasing
indices continuing from the current length, each new column at index `i`
having hidden count `i` and exactly one freshly drawn visible card, while
all previously existing columns are unchanged; running the operation twice
with the same requirement yields the same columns as running it once. -/
theorem c9_generate_new_growth (required : Nat) (draw : Nat → Card)
    (t : List Stack) :
    (required ≤ t.length → generate_new required draw t = t) ∧
    (generate_new required draw t).length = max t.length required ∧
    (∀ i, i < t.length →
      (generate_new required draw t).getD i emptyStack
        = t.getD i emptyStack) ∧
    (∀ i, t.length ≤ i → i < required →
      (generate_new required draw t).getD i emptyStack
        = { visible := [draw i], under := i }) ∧
    generate_new required draw (generate_new required draw t)
      = generate_new required draw t := by
  have hnoop : ∀ (u : List Stack), required ≤ u.length →
      generate_new required draw u = u := by
    intro u h
    unfold generate_new
    rw [if_neg (by omega)]
  have hlen : (generate_new required draw t).length = max t.length required := by
    unfold generate_new
    by_cases h : t.length < required
    · rw [if_pos h, List.length_append, List.length_map, List.length_range']
      omega
    · rw [if_neg h]
      omega
  refine ⟨?_, hlen, ?_, ?_, ?_⟩
  · intro h
    exact hnoop t h
  · intro i hi
    unfold generate_new
    by_cases h : t.length < required
    · rw [if_pos h]
      exact List.getD_append t _ emptyStack i hi
    · rw [if_neg h]
  · intro i h1 h2
    unfold generate_new
    rw [if_pos (by omega)]
    rw [List.getD_append_right t _ emptyStack i h1]
    rw [List.getD_eq_getElem?_getD]
    rw [List.getElem?_map]
    rw [List.getElem?_range' t.length 1 (by omega)]
    have harg : t.length + 1 * (i - t.length) = i := by omega
    rw [harg]
    rfl
  · have h2 : required ≤ (generate_new required draw t).length := by
      rw [hlen]; omega
    exact hnoop _ h2

/-- Witness for C9 at the spec's scenario shape: growing a 2-column board
to 4 columns creates column 3 with hidden count 3 and one drawn card. -/
theorem c9_generate_new_growth_witness :
    (generate_new 4 (fun h => { suit := Suit.Club, rank := h })
        [emptyStack, emptyStack]).getD 3 emptyStack
      = { visible := [{ suit := Suit.Club, rank := 3 }], under := 3 } :=
  (c9_generate_new_growth 4 (fun h => { suit := Suit.Club, rank := h })
    [emptyStack, emptyStack]).2.2.2.1 3 (by decide) (by decide)

end ClaimC9

section ClaimC8

/-- Claim C8: a pick-up from Idle on an existing column `r` at vertical
slot `yslot`.  If the slot falls in the hidden region the event changes
nothing; otherwise, with `visible_idx = yslot - under`, an index at or
beyond the top takes only the single top card (nothing, staying Idle, when
the visible stack is empty), and an index within the visible stack moves
the contiguous suffix from that index to the top into the held stack in
order; whenever cards are taken the origin column index is recorded and
the session becomes Holding. -/
theorem c8_pickup_cases (s : GState) (r yslot : Nat) (f : Bool) (d : Card)
    (hidle : s.grabbed_stack = []) (hr : r < s.tableau.length) :
    (yslot < (s.tableau.getD r emptyStack).under →
      on_click (some r) yslot f d s = s) ∧
    ((s.tableau.getD r emptyStack).under ≤ yslot →
      (s.tableau.getD r emptyStack).visible.length
          ≤ yslot - (s.tableau.getD r emptyStack).under →
      (s.tableau.getD r emptyStack).visible = [] →
      (on_click (some r) yslot f d s).grabbed_stack = [] ∧
      (on_click (some r) yslot f d s).tableau = s.tableau ∧
      (on_click (some r) yslot f d s).foundations = s.foundations) ∧
    (∀ c, (s.tableau.getD r emptyStack).under ≤ yslot →
      (s.tableau.getD r emptyStack).visible.length
          ≤ yslot - (s.tableau.getD r emptyStack).under →
      (s.tableau.getD r emptyStack).visible.getLast? = some c →
      (on_click (some r) yslot f d s).grabbed_stack = [c] ∧
      (on_click (some r) yslot f d s).tableau
        = s.tableau.set r
            { s.tableau.getD r emptyStack with
              visible := (s.tableau.getD r emptyStack).visible.dropLast } ∧
      (on_click (some r) yslot f d s).grabbed_stack_row = r) ∧
    ((s.tableau.getD r emptyStack).under ≤ yslot →
      yslot - (s.tableau.getD r emptyStack).under
          < (s.tableau.getD r emptyStack).visible.length →
      (on_click (some r) yslot f d s).grabbed_stack
        = (s.tableau.getD r emptyStack).visible.drop
            (yslot - (s.tableau.getD r emptyStack).under) ∧
      (on_click (some r) yslot f d s).grabbed_stack ≠ [] ∧
      (on_click (some r) yslot f d s).tableau
        = s.tableau.set r
            { s.tableau.getD r emptyStack with
              visible := (s.tableau.getD r emptyStack).visible.take
                (yslot - (s.tableau.getD r emptyStack).under) } ∧
      (on_click (some r) yslot f d s).grabbed_stack_row = r) := by
  rw [on_click_pick s r yslot f d hidle]
  refine ⟨?_, ?_, ?_, ?_⟩
  · intro h
    simp only [pickUp]
    rw [if_pos h]
  · intro h1 h2 hv
    simp only [pickUp]
    rw [if_neg (by omega), if_pos h2, hv]
    exact ⟨hidle, rfl, rfl⟩
  · intro c h1 h2 hlast
    simp only [pickUp]
    rw [if_neg (by omega), if_pos h2, hlast]
    refine ⟨?_, rfl, rfl⟩
    rw [hidle]
    rfl
  · intro h1 h2
    simp only [pickUp]
    rw [if_neg (by omega), if_neg (by omega)]
    refine ⟨?_, ?_, rfl, rfl⟩
    · rw [hidle]
      rfl
    · rw [hidle]
      simp only [List.nil_append, ne_eq, List.drop_eq_nil_iff]
      omega

/-- Witness for C8: picking up from slot 0 of a column holding one visible
card and no hidden cards takes that card into the held stack. -/
theorem c8_pickup_cases_witness :
    (on_click (some 0) 0 false defaultCard
        { grabbed_stack := [],
          grabbed_stack_row := 1,
          tableau := [{ visible := [{ suit := Suit.Spade, rank := 6 }],
                        under := 0 }],
          foundations := [] }).grabbed_stack
      = [{ suit := Suit.Spade, rank := 6 }] := by
  have h := ((c8_pickup_cases
    { grabbed_stack := [],
      grabbed_stack_row := 1,
      tableau := [{ visible := [{ suit := Suit.Spade, rank := 6 }],
                    under := 0 }],
      foundations := [] }
    0 0 false defaultCard rfl (by decide)).2.2.2 (by decide) (by decide)).1
  rw [h]
  decide

end ClaimC8

section HiddenCountLemmas

theorem under_set_same (t : List Stack) (j : Nat) (c : Stack) (i : Nat)
    (hu : c.under = (t.getD j emptyStack).under) :
    ((t.set j c).getD i emptyStack).under = (t.getD i emptyStack).under := by
  by_cases hij : j = i
  · subst hij
    by_cases hj : j < t.length
    · rw [getD_set_self t j c emptyStack hj]
      exact hu
    · rw [List.set_eq_of_length_le (by omega)]
  · rw [getD_set_ne t j i c emptyStack hij]

theorem revealIfEmpty_under (d : Card) (st : Stack) :
    (revealIfEmpty d st).under = st.under ∨
      ((revealIfEmpty d st).under + 1 = st.under ∧
        (revealIfEmpty d st).visible = [d]) := by
  unfold revealIfEmpty
  split
  · rename_i hcond
    simp only [Bool.and_eq_true, decide_eq_true_eq, List.isEmpty_iff] at hcond
    right
    constructor
    · simp only
      omega
    · simp [hcond.2]
  · left
    rfl

theorem revealOrigin_under (d : Card) (t : List Stack) (j i : Nat) :
    ((revealOrigin d t j).getD i emptyStack).under
        = (t.getD i emptyStack).under ∨
      (((revealOrigin d t j).getD i emptyStack).under + 1
          = (t.getD i emptyStack).under ∧
        ((revealOrigin d t j).getD i emptyStack).visible = [d]) := by
  unfold revealOrigin
  by_cases hij : j = i
  · subst hij
    by_cases hj : j < t.length
    · rw [getD_set_self t j _ emptyStack hj]
      exact revealIfEmpty_under d (t.getD j emptyStack)
    · rw [List.set_eq_of_length_le (by omega)]
      left
      rfl
  · rw [getD_set_ne t j i _ emptyStack hij]
    left
    rfl

theorem cancelDrop_under (s : GState) (i : Nat) :
    ((cancelDrop s).tableau.getD i emptyStack).under
      = (s.tableau.getD i emptyStack).under := by
  unfold cancelDrop
  exact under_set_same _ _ _ i rfl

theorem placeOnFoundation_under (fi : Nat) (d : Card) (s : GState) (i : Nat) :
    ((placeOnFoundation fi d s).tableau.getD i emptyStack).under
        = (s.tableau.getD i emptyStack).under ∨
      (((placeOnFoundation fi d s).tableau.getD i emptyStack).under + 1
          = (s.tableau.getD i emptyStack).under ∧
        ((placeOnFoundation fi d s).tableau.getD i emptyStack).visible = [d]) := by
  unfold placeOnFoundation
  exact revealOrigin_under d s.tableau s.grabbed_stack_row i

theorem pickUp_under (r yslot : Nat) (s : GState) (i : Nat) :
    ((pickUp r yslot s).tableau.getD i emptyStack).under
      = (s.tableau.getD i emptyStack).under := by
  simp only [pickUp]
  split
  · rfl
  · split
    · split
      · rfl
      · exact under_set_same _ _ _ i rfl
    · exact under_set_same _ _ _ i rfl

theorem dropOnFoundation_under (r : Nat) (d : Card) (s : GState) (i : Nat) :
    ((dropOnFoundation r d s).tableau.getD i emptyStack).under
        = (s.tableau.getD i emptyStack).under ∨
      (((dropOnFoundation r d s).tableau.getD i emptyStack).under + 1
          = (s.tableau.getD i emptyStack).under ∧
        ((dropOnFoundation r d s).tableau.getD i emptyStack).visible = [d]) := by
  simp only [dropOnFoundation]
  split
  · left
    exact cancelDrop_under s i
  · split
    · split
      · exact placeOnFoundation_under _ d s i
      · left
        rfl
    · split
      · exact placeOnFoundation_under _ d s i
      · left
        rfl

theorem dropOnTableau_under (r : Nat) (d : Card) (s : GState) (i : Nat) :
    ((dropOnTableau r d s).tableau.getD i emptyStack).under
        = (s.tableau.getD i emptyStack).under ∨
      (((dropOnTableau r d s).tableau.getD i emptyStack).under + 1
          = (s.tableau.getD i emptyStack).under ∧
        ((dropOnTableau r d s).tableau.getD i emptyStack).visible = [d]) := by
  simp only [dropOnTableau]
  split
  · have hmid : ∀ k,
        ((s.tableau.set r
          { s.tableau.getD r emptyStack with
            visible := (s.tableau.getD r emptyStack).visible
              ++ s.grabbed_stack }).getD k emptyStack).under
          = (s.tableau.getD k emptyStack).under :=
      fun k => under_set_same _ _ _ k rfl
    rcases revealOrigin_under d
        (s.tableau.set r
          { s.tableau.getD r emptyStack with
            visible := (s.tableau.getD r emptyStack).visible
              ++ s.grabbed_stack })
        s.grabbed_stack_row i with h | ⟨h1, h2⟩
    · left
      rw [h]
      exact hmid i
    · right
      exact ⟨h1.trans (hmid i), h2⟩
  · left
    exact cancelDrop_under s i

end HiddenCountLemmas

section ClaimC7

/-- Claim C7: over one input event, each column's hidden count never
increases; it either stays the same or drops by exactly 1, and in the
latter case the column's visible stack right after the event is exactly the
one freshly drawn card — which entails the reveal happened with the visible
stack empty and the hidden count positive beforehand. -/
theorem c7_hidden_count_step (rowOver : Option Nat) (yslot : Nat) (f : Bool)
    (d : Card) (s : GState) (i : Nat) :
    ((on_click rowOver yslot f d s).tableau.getD i emptyStack).under
        = (s.tableau.getD i emptyStack).under ∨
      (((on_click rowOver yslot f d s).tableau.getD i emptyStack).under + 1
          = (s.tableau.getD i emptyStack).under ∧
        ((on_click rowOver yslot f d s).tableau.getD i emptyStack).visible
          = [d]) := by
  unfold on_click
  split
  · split
    · left
      rfl
    · left
      exact pickUp_under _ yslot s i
  · split
    · left
      exact cancelDrop_under s i
    · split
      · exact dropOnFoundation_under _ d s i
      · exact dropOnTableau_under _ d s i

end ClaimC7

section RoundTripLemmas

theorem dropOnTableau_origin (s1 : GState) (c : Nat) (d : Card)
    (v : List Card) (u : Nat) (hc : c < s1.tableau.length)
    (hrow : s1.grabbed_stack_row = c)
    (hcol : s1.tableau.getD c emptyStack = { visible := v, under := u })
    (hg : s1.grabbed_stack ≠ []) :
    (dropOnTableau c d s1).tableau
        = s1.tableau.set c { visible := v ++ s1.grabbed_stack, under := u } ∧
      (dropOnTableau c d s1).grabbed_stack = [] ∧
      (dropOnTableau c d s1).foundations = s1.foundations := by
  have happne : v ++ s1.grabbed_stack ≠ [] := by
    intro h0
    exact hg (List.append_eq_nil.mp h0).2
  simp only [dropOnTableau]
  split
  · refine ⟨?_, rfl, rfl⟩
    rw [hcol, hrow]
    unfold revealOrigin
    rw [getD_set_self s1.tableau c _ emptyStack hc]
    have hrie : revealIfEmpty d
        { visible := v ++ s1.grabbed_stack, under := u }
        = { visible := v ++ s1.grabbed_stack, under := u } := by
      unfold revealIfEmpty
      rw [if_neg]
      intro hcond
      rw [Bool.and_eq_true] at hcond
      exact happne (List.isEmpty_iff.mp hcond.2)
    rw [hrie, List.set_set]
  · refine ⟨?_, rfl, rfl⟩
    simp only [cancelDrop, hrow, hcol]

end RoundTripLemmas

section ClaimC10

/-- Claim C10: picking up from a column `c` and then making an ordinary
tableau drop (pointer not over the foundation row, or more than one card
held) whose target is `c` itself is an exact round trip: afterwards all
columns, the Foundation Set and the held stack equal the state just before
the pick-up, whether the legality test succeeds or fails, and no reveal
occurs. -/
theorem c10_pick_drop_round_trip (s : GState) (c y1 y2 : Nat)
    (f1 f2 : Bool) (d1 d2 : Card) (hc : c < s.tableau.length)
    (hidle : s.grabbed_stack = [])
    (hheld : (on_click (some c) y1 f1 d1 s).grabbed_stack ≠ [])
    (hord : f2 = false ∨
      (on_click (some c) y1 f1 d1 s).grabbed_stack.length ≠ 1) :
    (on_click (some c) y2 f2 d2 (on_click (some c) y1 f1 d1 s)).tableau
        = s.tableau ∧
      (on_click (some c) y2 f2 d2
        (on_click (some c) y1 f1 d1 s)).foundations = s.foundations ∧
      (on_click (some c) y2 f2 d2
        (on_click (some c) y1 f1 d1 s)).grabbed_stack = [] := by
  rw [on_click_pick s c y1 f1 d1 hidle] at hheld hord ⊢
  have hchar : (pickUp c y1 s).grabbed_stack ≠ [] →
      ∃ g v, g ≠ [] ∧
        pickUp c y1 s =
          { grabbed_stack := g, grabbed_stack_row := c,
            tableau := s.tableau.set c
              { visible := v,
                under := (s.tableau.getD c emptyStack).under },
            foundations := s.foundations } ∧
        v ++ g = (s.tableau.getD c emptyStack).visible := by
    simp only [pickUp]
    split
    · intro hh
      exact absurd hidle hh
    · split
      · split
        · intro hh
          exact absurd hidle hh
        · rename_i card hlast
          intro _
          have hne : (s.tableau.getD c emptyStack).visible ≠ [] := by
            intro h0
            rw [h0] at hlast
            simp at hlast
          have hcard : (s.tableau.getD c emptyStack).visible.getLast hne
              = card := by
            have h2 := List.getLast?_eq_getLast
              (s.tableau.getD c emptyStack).visible hne
            rw [h2] at hlast
            injection hlast
          refine ⟨[card], (s.tableau.getD c emptyStack).visible.dropLast,
            by simp, ?_, ?_⟩
          · rw [hidle]
            rfl
          · rw [← hcard]
            exact List.dropLast_append_getLast hne
      · rename_i hlen
        intro _
        refine ⟨(s.tableau.getD c emptyStack).visible.drop
            (y1 - (s.tableau.getD c emptyStack).under),
          (s.tableau.getD c emptyStack).visible.take
            (y1 - (s.tableau.getD c emptyStack).under),
          ?_, ?_, List.take_append_drop _ _⟩
        · rw [ne_eq, List.drop_eq_nil_iff]
          omega
        · rw [hidle]
          rfl
  obtain ⟨g, v, hgne, hpick, hvg⟩ := hchar hheld
  rw [hpick] at hord ⊢
  rw [on_click_drop_tableau _ c y2 f2 d2 hgne hord]
  have hres := dropOnTableau_origin
    { grabbed_stack := g, grabbed_stack_row := c,
      tableau := s.tableau.set c
        { visible := v, under := (s.tableau.getD c emptyStack).under },
      foundations := s.foundations }
    c d2 v (s.tableau.getD c emptyStack).under
    (by simpa using hc) rfl
    (getD_set_self s.tableau c _ emptyStack hc) hgne
  rcases hres with ⟨ht, hg2, hf2⟩
  refine ⟨?_, hf2, hg2⟩
  rw [ht]
  show (s.tableau.set c _).set c _ = s.tableau
  rw [List.set_set, hvg]
  exact set_getD_self s.tableau c emptyStack hc

/-- Witness for C10: pick up the single seven of spades from column 0 and
drop it back onto column 0. -/
theorem c10_pick_drop_round_trip_witness :
    (on_click (some 0) 0 false defaultCard
      (on_click (some 0) 0 false defaultCard
        { grabbed_stack := [],
          grabbed_stack_row := 1,
          tableau := [{ visible := [{ suit := Suit.Spade, rank := 6 }],
                        under := 0 }],
          foundations := [] })).tableau
      = [{ visible := [{ suit := Suit.Spade, rank := 6 }], under := 0 }] := by
  have h := (c10_pick_drop_round_trip
    { grabbed_stack := [],
      grabbed_stack_row := 1,
      tableau := [{ visible := [{ suit := Suit.Spade, rank := 6 }],
                    under := 0 }],
      foundations := [] }
    0 0 0 false false defaultCard defaultCard
    (by decide) rfl (by decide) (Or.inl rfl)).1
  rw [h]

end ClaimC10

section ConservationLemmas

theorem add_switch2 (a b c e : Multiset Card) (h : a + c = b + (c + e)) :
    a = b + e := by
  apply add_right_cancel (b := c)
  calc a + c = b + (c + e) := h
    _ = b + e + c := by abel

theorem add_switch3 (a b c e : Multiset Card) (h : a + (c + e) = b + c) :
    a + e = b := by
  apply add_right_cancel (b := c)
  calc a + e + c = a + (c + e) := by abel
    _ = b + c := h

theorem tableauCards_set_append (t : List Stack) (r : Nat) (extra : List Card)
    (hr : r < t.length) :
    tableauCards (t.set r
        { t.getD r emptyStack with
          visible := (t.getD r emptyStack).visible ++ extra })
      = tableauCards t + (extra : Multiset Card) := by
  have h := tableauCards_set t r
    { t.getD r emptyStack with
      visible := (t.getD r emptyStack).visible ++ extra } hr
  rw [← Multiset.coe_add] at h
  exact add_switch2 _ _ _ _ h

theorem stateCards_cancelDrop (s : GState)
    (hrow : s.grabbed_stack_row < s.tableau.length) :
    stateCards (cancelDrop s) = stateCards s := by
  simp only [cancelDrop, stateCards]
  rw [tableauCards_set_append s.tableau s.grabbed_stack_row s.grabbed_stack hrow]
  simp only [Multiset.coe_nil, add_zero]

theorem stateCards_pickUp (r yslot : Nat) (s : GState)
    (hr : r < s.tableau.length) :
    stateCards (pickUp r yslot s) = stateCards s := by
  simp only [pickUp]
  split
  · rfl
  · split
    · split
      · rfl
      · rename_i card hlast
        simp only [stateCards]
        have hne : (s.tableau.getD r emptyStack).visible ≠ [] := by
          intro h0
          rw [h0] at hlast
          simp at hlast
        have hv : (s.tableau.getD r emptyStack).visible.dropLast ++ [card]
            = (s.tableau.getD r emptyStack).visible := by
          have hcard : (s.tableau.getD r emptyStack).visible.getLast hne
              = card := by
            have h2 := List.getLast?_eq_getLast
              (s.tableau.getD r emptyStack).visible hne
            rw [h2] at hlast
            injection hlast
          rw [← hcard]
          exact List.dropLast_append_getLast hne
        have h := tableauCards_set s.tableau r
          { s.tableau.getD r emptyStack with
            visible := (s.tableau.getD r emptyStack).visible.dropLast } hr
        have hcoe : ((s.tableau.getD r emptyStack).visible : Multiset Card)
            = ((s.tableau.getD r emptyStack).visible.dropLast : Multiset Card)
              + (↑[card] : Multiset Card) := by
          rw [Multiset.coe_add, hv]
        rw [hcoe] at h
        have h4 := add_switch3 _ _ _ _ h
        rw [← Multiset.coe_add]
        calc tableauCards (s.tableau.set r
              { s.tableau.getD r emptyStack with
                visible := (s.tableau.getD r emptyStack).visible.dropLast })
              + ((s.grabbed_stack : Multiset Card) + (↑[card] : Multiset Card))
              + foundationCards s.foundations
            = tableauCards (s.tableau.set r
                { s.tableau.getD r emptyStack with
                  visible := (s.tableau.getD r emptyStack).visible.dropLast })
                + (↑[card] : Multiset Card) + (s.grabbed_stack : Multiset Card)
                + foundationCards s.foundations := by abel
          _ = tableauCards s.tableau + (s.grabbed_stack : Multiset Card)
                + foundationCards s.foundations := by rw [h4]
    · simp only [stateCards]
      have h := tableauCards_set s.tableau r
        { s.tableau.getD r emptyStack with
          visible := (s.tableau.getD r emptyStack).visible.take
            (yslot - (s.tableau.getD r emptyStack).under) } hr
      have hcoe : ((s.tableau.getD r emptyStack).visible : Multiset Card)
          = ((s.tableau.getD r emptyStack).visible.take
              (yslot - (s.tableau.getD r emptyStack).under) : Multiset Card)
            + ((s.tableau.getD r emptyStack).visible.drop
              (yslot - (s.tableau.getD r emptyStack).under) : Multiset Card) := by
        rw [Multiset.coe_add, List.take_append_drop]
      rw [hcoe] at h
      have h4 := add_switch3 _ _ _ _ h
      rw [← Multiset.coe_add]
      calc tableauCards (s.tableau.set r
            { s.tableau.getD r emptyStack with
              visible := (s.tableau.getD r emptyStack).visible.take
                (yslot - (s.tableau.getD r emptyStack).under) })
            + ((s.grabbed_stack : Multiset Card)
              + ((s.tableau.getD r emptyStack).visible.drop
                (yslot - (s.tableau.getD r emptyStack).under) : Multiset Card))
            + foundationCards s.foundations
          = tableauCards (s.tableau.set r
              { s.tableau.getD r emptyStack with
                visible := (s.tableau.getD r emptyStack).visible.take
                  (yslot - (s.tableau.getD r emptyStack).under) })
              + ((s.tableau.getD r emptyStack).visible.drop
                (yslot - (s.tableau.getD r emptyStack).under) : Multiset Card)
              + (s.grabbed_stack : Multiset Card)
              + foundationCards s.foundations := by abel
        _ = tableauCards s.tableau + (s.grabbed_stack : Multiset Card)
              + foundationCards s.foundations := by rw [h4]

theorem tableauCards_revealOrigin (d : Card) (t : List Stack) (j : Nat) :
    tableauCards (revealOrigin d t j) = tableauCards t ∨
      tableauCards (revealOrigin d t j) = tableauCards t + {d} := by
  by_cases hj : j < t.length
  · simp only [revealOrigin, revealIfEmpty]
    split
    · right
      have h := tableauCards_set t j
        { visible := (t.getD j emptyStack).visible ++ [d],
          under := (t.getD j emptyStack).under - 1 } hj
      rw [← Multiset.coe_add] at h
      have h4 := add_switch2 _ _ _ _ h
      rw [h4, Multiset.coe_singleton]
    · left
      rw [set_getD_self t j emptyStack hj]
  · simp only [revealOrigin]
    rw [List.set_eq_of_length_le (by omega)]
    left
    rfl

theorem stateCards_dropOnTableau (r : Nat) (d : Card) (s : GState)
    (hr : r < s.tableau.length)
    (hrow : s.grabbed_stack_row < s.tableau.length) :
    stateCards (dropOnTableau r d s) = stateCards s ∨
      stateCards (dropOnTableau r d s) = stateCards s + {d} := by
  simp only [dropOnTableau]
  split
  · simp only [stateCards]
    have ht1 := tableauCards_set_append s.tableau r s.grabbed_stack hr
    rcases tableauCards_revealOrigin d
        (s.tableau.set r
          { s.tableau.getD r emptyStack with
            visible := (s.tableau.getD r emptyStack).visible
              ++ s.grabbed_stack })
        s.grabbed_stack_row with h | h
    · left
      rw [h, ht1]
      simp only [Multiset.coe_nil, add_zero]
    · right
      rw [h, ht1]
      simp only [Multiset.coe_nil, add_zero]
      abel
  · left
    exact stateCards_cancelDrop s hrow

theorem grabbed_split (s : GState) (hg : s.grabbed_stack ≠ []) :
    (s.grabbed_stack.dropLast : Multiset Card)
        + {s.grabbed_stack.getLastD defaultCard}
      = (s.grabbed_stack : Multiset Card) := by
  have hl := List.dropLast_append_getLast hg
  have hgd : s.grabbed_stack.getLastD defaultCard
      = s.grabbed_stack.getLast hg := by
    rw [List.getLastD_eq_getLast?, List.getLast?_eq_getLast _ hg]
    rfl
  rw [hgd, ← Multiset.coe_singleton, Multiset.coe_add, hl]

theorem stateCards_placeOnFoundation_none (fi : Nat) (d : Card) (s : GState)
    (hg : s.grabbed_stack ≠ []) (hf : fGet s.foundations fi = none) :
    stateCards (placeOnFoundation fi d s) = stateCards s ∨
      stateCards (placeOnFoundation fi d s) = stateCards s + {d} := by
  simp only [placeOnFoundation, stateCards]
  rw [foundationCards_fInsert_none s.foundations fi _ hf,
    ← Multiset.singleton_add, ← grabbed_split s hg]
  rcases tableauCards_revealOrigin d s.tableau s.grabbed_stack_row with h | h
  · left
    rw [h]
    abel
  · right
    rw [h]
    abel

theorem stateCards_placeOnFoundation_some (fi : Nat) (d : Card) (s : GState)
    (t : Card) (hnd : (s.foundations.map Prod.fst).Nodup)
    (hg : s.grabbed_stack ≠ []) (hf : fGet s.foundations fi = some t) :
    stateCards (placeOnFoundation fi d s) + {t} = stateCards s ∨
      stateCards (placeOnFoundation fi d s) + {t} = stateCards s + {d} := by
  simp only [placeOnFoundation, stateCards]
  have hfc := foundationCards_fInsert_some s.foundations fi
    (s.grabbed_stack.getLastD defaultCard) t hnd hf
  have key : ∀ T2 : Multiset Card,
      T2 + (s.grabbed_stack.dropLast : Multiset Card)
          + foundationCards (fInsert s.foundations fi
            (s.grabbed_stack.getLastD defaultCard)) + {t}
        = T2 + (s.grabbed_stack : Multiset Card)
          + foundationCards s.foundations := by
    intro T2
    calc T2 + (s.grabbed_stack.dropLast : Multiset Card)
          + foundationCards (fInsert s.foundations fi
            (s.grabbed_stack.getLastD defaultCard)) + {t}
        = T2 + (s.grabbed_stack.dropLast : Multiset Card)
          + (foundationCards (fInsert s.foundations fi
            (s.grabbed_stack.getLastD defaultCard)) + {t}) := by abel
      _ = T2 + (s.grabbed_stack.dropLast : Multiset Card)
          + (s.grabbed_stack.getLastD defaultCard ::ₘ
            foundationCards s.foundations) := by rw [hfc]
      _ = T2 + ((s.grabbed_stack.dropLast : Multiset Card)
          + {s.grabbed_stack.getLastD defaultCard})
          + foundationCards s.foundations := by
          rw [← Multiset.singleton_add]
          abel
      _ = T2 + (s.grabbed_stack : Multiset Card)
          + foundationCards s.foundations := by rw [grabbed_split s hg]
  rcases tableauCards_revealOrigin d s.tableau s.grabbed_stack_row with h | h
  · left
    rw [key (tableauCards (revealOrigin d s.tableau s.grabbed_stack_row)), h]
  · right
    rw [key (tableauCards (revealOrigin d s.tableau s.grabbed_stack_row)), h]
    abel

end ConservationLemmas

section ClaimC2

/-- Claim C2: over any single input event, the multiset of cards across all
columns' visible stacks, the held stack and the foundation tops is
preserved, except that a successful foundation placement onto a non-empty
entry removes exactly the overwritten previous top (the
`foundationOverwrite` term, nonzero only in that case) and a successful
reveal adds exactly the one freshly drawn card `d`; in particular no card
is duplicated and none is lost. -/
theorem c2_no_duplication_no_loss (rowOver : Option Nat) (yslot : Nat)
    (f : Bool) (d : Card) (s : GState)
    (hro : ∀ r, rowOver = some r → r < s.tableau.length)
    (hrow : s.grabbed_stack_row < s.tableau.length)
    (hnd : (s.foundations.map Prod.fst).Nodup) :
    stateCards (on_click rowOver yslot f d s)
        + foundationOverwrite rowOver f s
      = stateCards s ∨
    stateCards (on_click rowOver yslot f d s)
        + foundationOverwrite rowOver f s
      = stateCards s + {d} := by
  rcases rowOver with _ | r
  · rw [show foundationOverwrite none f s = 0 from rfl, add_zero]
    by_cases hemp : s.grabbed_stack = []
    · left
      have hcl : on_click none yslot f d s = s := by
        simp [on_click, hemp]
      rw [hcl]
    · left
      rw [on_click_drop_none s yslot f d hemp]
      exact stateCards_cancelDrop s hrow
  · have hr : r < s.tableau.length := hro r rfl
    by_cases hemp : s.grabbed_stack = []
    · have hov : foundationOverwrite (some r) f s = 0 := by
        simp only [foundationOverwrite]
        rw [if_neg]
        intro hcond
        rw [hemp] at hcond
        exact absurd hcond.2.1 (by decide)
      rw [hov, add_zero]
      left
      rw [on_click_pick s r yslot f d hemp]
      exact stateCards_pickUp r yslot s hr
    · by_cases hfl : f = true ∧ s.grabbed_stack.length = 1
      · obtain ⟨hft, hl1⟩ := hfl
        subst hft
        rw [on_click_drop_foundation s r yslot d hemp hl1]
        by_cases hr3 : r < 3
        · have hov : foundationOverwrite (some r) true s = 0 := by
            simp only [foundationOverwrite]
            rw [if_neg]
            intro hcond
            omega
          rw [hov, add_zero]
          left
          rw [dof_low s r d hr3]
          exact stateCards_cancelDrop s hrow
        · have hr3' : 3 ≤ r := by omega
          cases hf : fGet s.foundations (r - 3) with
          | none =>
            have hov : foundationOverwrite (some r) true s = 0 := by
              simp only [foundationOverwrite]
              rw [if_pos ⟨trivial, hl1, hr3'⟩]
              simp only [hf]
            rw [hov, add_zero]
            by_cases hace : (s.grabbed_stack.getD 0 defaultCard).rank = 0
            · rw [dof_none_ace s r d hr3' hf hace]
              exact stateCards_placeOnFoundation_none (r - 3) d s hemp hf
            · left
              rw [dof_none_notace s r d hr3' hf hace]
          | some t =>
            by_cases hacc : t.suit = (s.grabbed_stack.getD 0 defaultCard).suit
                ∧ t.rank + 1 = (s.grabbed_stack.getD 0 defaultCard).rank
            · have hov : foundationOverwrite (some r) true s = {t} := by
                simp only [foundationOverwrite]
                rw [if_pos ⟨trivial, hl1, hr3'⟩]
                simp only [hf]
                rw [if_pos hacc]
              rw [hov]
              rw [dof_some_ok s r d t hr3' hf hacc.1 hacc.2]
              exact stateCards_placeOnFoundation_some (r - 3) d s t hnd
                hemp hf
            · have hov : foundationOverwrite (some r) true s = 0 := by
                simp only [foundationOverwrite]
                rw [if_pos ⟨trivial, hl1, hr3'⟩]
                simp only [hf]
                rw [if_neg hacc]
              rw [hov, add_zero]
              left
              rw [dof_some_bad s r d t hr3' hf hacc]
      · have hord : f = false ∨ s.grabbed_stack.length ≠ 1 := by
          rcases Bool.eq_false_or_eq_true f with hfx | hfx
          · exact Or.inr (fun hlen => hfl ⟨hfx, hlen⟩)
          · exact Or.inl hfx
        have hov : foundationOverwrite (some r) f s = 0 := by
          simp only [foundationOverwrite]
          rw [if_neg]
          intro hcond
          exact hfl ⟨hcond.1, hcond.2.1⟩
        rw [hov, add_zero, on_click_drop_tableau s r yslot f d hemp hord]
        exact stateCards_dropOnTableau r d s hr hrow

/-- Witness for C2: a successful foundation placement of the two of hearts
onto the ace of hearts keeps the card multiset balanced: the overwritten
ace is the only removal. -/
theorem c2_no_duplication_no_loss_witness :
    stateCards (on_click (some 5) 0 true defaultCard
        { grabbed_stack := [{ suit := Suit.Heart, rank := 1 }],
          grabbed_stack_row := 0,
          tableau := [emptyStack, emptyStack, emptyStack, emptyStack,
            emptyStack, emptyStack],
          foundations := [(2, { suit := Suit.Heart, rank := 0 })] })
        + foundationOverwrite (some 5) true
          { grabbed_stack := [{ suit := Suit.Heart, rank := 1 }],
            grabbed_stack_row := 0,
            tableau := [emptyStack, emptyStack, emptyStack, emptyStack,
              emptyStack, emptyStack],
            foundations := [(2, { suit := Suit.Heart, rank := 0 })] }
      = stateCards
          { grabbed_stack := [{ suit := Suit.Heart, rank := 1 }],
            grabbed_stack_row := 0,
            tableau := [emptyStack, emptyStack, emptyStack, emptyStack,
              emptyStack, emptyStack],
            foundations := [(2, { suit := Suit.Heart, rank := 0 })] } ∨
    stateCards (on_click (some 5) 0 true defaultCard
        { grabbed_stack := [{ suit := Suit.Heart, rank := 1 }],
          grabbed_stack_row := 0,
          tableau := [emptyStack, emptyStack, emptyStack, emptyStack,
            emptyStack, emptyStack],
          foundations := [(2, { suit := Suit.Heart, rank := 0 })] })
        + foundationOverwrite (some 5) true
          { grabbed_stack := [{ suit := Suit.Heart, rank := 1 }],
            grabbed_stack_row := 0,
            tableau := [emptyStack, emptyStack, emptyStack, emptyStack,
              emptyStack, emptyStack],
            foundations := [(2, { suit := Suit.Heart, rank := 0 })] }
      = stateCards
          { grabbed_stack := [{ suit := Suit.Heart, rank := 1 }],
            grabbed_stack_row := 0,
            tableau := [emptyStack, emptyStack, emptyStack, emptyStack,
              emptyStack, emptyStack],
            foundations := [(2, { suit := Suit.Heart, rank := 0 })] }
        + {defaultCard} :=
  c2_no_duplication_no_loss (some 5) 0 true defaultCard
    { grabbed_stack := [{ suit := Suit.Heart, rank := 1 }],
      grabbed_stack_row := 0,
      tableau := [emptyStack, emptyStack, emptyStack, emptyStack,
        emptyStack, emptyStack],
      foundations := [(2, { suit := Suit.Heart, rank := 0 })] }
    (by intro r hr; injection hr with hr; subst hr; decide)
    (by decide) (by decide)

end ClaimC2

end Klondike
